import Mathlib

/-!
Verification of the Command-pattern order-management demo (src/index.js).

The program has two variants of an order manager over an in-memory list of
order identifier strings:

* the Direct Manager (`OrderManager`) with methods `placeOrder`, `trackOrder`
  and `cancelOrder`, each returning a status string;
* the Command-Dispatching Manager (`OrderManager1`) with a single `execute`
  method that invokes the behavior wrapped in a `Command` value, passing the
  manager's collection first and any extra arguments after.

Mutation is modelled by explicit state passing: each operation takes the
current contents of the manager's `orders` array and returns the contents
after the call, together with its return value or console output.
-/

/-- State and return value of a Direct Manager method: the contents of the
manager's `orders` array after the call, and the returned status string. -/
def DirectResult : Type := List String × String

/-- Method `placeOrder(order, id)` of `OrderManager` (src/index.js lines 9-12):
`this.orders.push(id)` appends `id` to the array, and the template literal
result is returned. -/
def OrderManager.placeOrder (orders : List String) (order id : String) :
    List String × String :=
  (orders ++ [id], "You have successfully ordered " ++ order ++ " (" ++ id ++ ")")

/-- Method `trackOrder(id)` of `OrderManager` (src/index.js lines 14-16): the
body neither reads nor writes `this.orders`; it only returns the ETA string. -/
def OrderManager.trackOrder (orders : List String) (id : String) :
    List String × String :=
  (orders, "Your order " ++ id ++ " will arrive in 20 minutes.")

/-- Method `cancelOrder(id)` of `OrderManager` (src/index.js lines 18-21):
`this.orders = this.orders.filter(order => order !== id)` replaces the array
with the elements different from `id`, then the confirmation is returned. -/
def OrderManager.cancelOrder (orders : List String) (id : String) :
    List String × String :=
  (orders.filter (fun order => order != id), "You have canceled your order " ++ id)

/-- Effect of invoking a command's wrapped behavior: the contents of the
manager's `orders` array after the call (reflecting any in-place mutation the
behavior performed on it), the lines written to the console, and the JS return
value (`none` models `undefined`; all three factory commands only log). -/
structure CmdResult where
  orders : List String
  logs : List String
  ret : Option String
deriving DecidableEq

/-- Class `Command` (src/index.js lines 53-57): a value wrapping exactly one
behavior function. The behavior receives the manager's collection and the
forwarded variadic arguments (modelled as a list of strings). -/
structure Command where
  execute : List String → List String → CmdResult

/-- Method `execute(command, ...args)` of `OrderManager1` (src/index.js lines
48-50): `return command.execute(this.orders, ...args)`. -/
def OrderManager1.execute (orders : List String) (command : Command)
    (args : List String) : CmdResult :=
  command.execute orders args

/-- JS property access `order.id` performed on an element of the collection.
The collections in this program store bare strings, and a JS string has no
`id` property, so the access evaluates to `undefined`, modelled as `none`. -/
def jsIdField (_order : String) : Option String := none

/-- JS strict inequality `a !== b` where `a` may be `undefined` (`none`) and
`b` is a string: `undefined !== s` is true for every string `s`. -/
def jsStrictNe (a : Option String) (b : String) : Bool :=
  match a with
  | none => true
  | some s => s != b

/-- The filter expression `orders.filter(order => order.id !== id)` inside the
behavior of `CancelOrderCommand` (src/index.js line 68). -/
def cancelCommandFilter (id : String) (orders : List String) : List String :=
  orders.filter (fun order => jsStrictNe (jsIdField order) id)

/-- Factory `PlaceOrderCommand(order, id)` (src/index.js lines 59-64): the
behavior pushes `id` onto the given array (in-place mutation, visible to the
manager) and logs a confirmation; it returns `undefined`. -/
def PlaceOrderCommand (order id : String) : Command :=
  Command.mk (fun orders _args =>
    CmdResult.mk (orders ++ [id])
      ["You have successfully ordered " ++ order ++ " (" ++ id ++ ")"] none)

/-- Factory `CancelOrderCommand(id)` (src/index.js lines 66-71): the behavior
computes `orders.filter(order => order.id !== id)` and assigns it back to the
callback's local `orders` parameter. `Array.prototype.filter` returns a new
array and the assignment only rebinds the local name, so the manager's own
array is never mutated: the shared collection after the call is the original
`orders`. The confirmation is logged regardless. -/
def CancelOrderCommand (id : String) : Command :=
  Command.mk (fun orders _args =>
    let _local := cancelCommandFilter id orders
    CmdResult.mk orders ["You have canceled your order " ++ id] none)

/-- Factory `TrackOrderCommand(id)` (src/index.js lines 73-77): the behavior
takes no parameters, ignoring the collection, and only logs the ETA message. -/
def TrackOrderCommand (id : String) : Command :=
  Command.mk (fun orders _args =>
    CmdResult.mk orders ["Your order " ++ id ++ " will arrive in 20 minutes."] none)

/-- Substring containment on strings, phrased over the underlying character
lists: `sub` occurs contiguously inside `s`. -/
def strContains (s sub : String) : Prop :=
  ∃ pre post : List Char, s.data = pre ++ sub.data ++ post

/-- The character data of an appended string is the appended character data. -/
theorem str_data_append (s t : String) : (s ++ t).data = s.data ++ t.data := rfl

/-- Deleting all occurrences of `id` from a sequence while keeping the
remaining elements in their original relative order. -/
def removeAllSpec (id : String) : List String → List String
  | [] => []
  | x :: xs => if x = id then removeAllSpec id xs else x :: removeAllSpec id xs

/-- C1: for every string `id` and every manager collection of bare identifier
strings, `execute` with `CancelOrderCommand(id)` leaves the dispatching
manager's internal order collection unchanged, and indeed the filter predicate
`order.id !== id` retains every element, since `order.id` is `undefined` on a
bare string. -/
theorem cancelOrderCommand_noop (id : String) (orders args : List String) :
    (OrderManager1.execute orders (CancelOrderCommand id) args).orders = orders
    ∧ cancelCommandFilter id orders = orders := by
  refine ⟨rfl, ?_⟩
  simp [cancelCommandFilter, jsStrictNe, jsIdField]

/-- C2: for every command and argument list, `execute(command, ...args)` on a
dispatching-manager state produces exactly the result (return value, console
output and resulting collection state) of invoking the command's wrapped
behavior directly on the manager's collection and the arguments. -/
theorem execute_refines_command (command : Command) (orders args : List String) :
    OrderManager1.execute orders command args = command.execute orders args := rfl

/-- C3: `cancelOrder(id)` on the Direct Manager removes every occurrence of
`id` from the collection and returns the confirmation string; when `id` is
absent the collection is left exactly unchanged and the same success-shaped
string is still returned. -/
theorem cancelOrder_spec (id : String) (orders : List String) :
    id ∉ (OrderManager.cancelOrder orders id).1
    ∧ (OrderManager.cancelOrder orders id).2 = "You have canceled your order " ++ id
    ∧ (id ∉ orders → (OrderManager.cancelOrder orders id).1 = orders) := by
  refine ⟨?_, rfl, ?_⟩
  · simp [OrderManager.cancelOrder, List.mem_filter]
  · intro h
    simp only [OrderManager.cancelOrder]
    rw [List.filter_eq_self]
    intro a ha
    simp only [bne_iff_ne, ne_eq]
    exact fun e => h (e ▸ ha)

/-- Witness for C3 at a concrete absent identifier. -/
theorem cancelOrder_spec_witness :
    (OrderManager.cancelOrder ["311"] "9").1 = ["311"] :=
  (cancelOrder_spec "9" ["311"]).2.2 (by decide)

/-- C4: `placeOrder(order, id)` appends `id` to the end of the collection,
keeping every previously stored identifier in place, and returns a string
containing both `order` and `id`. -/
theorem placeOrder_spec (order id : String) (orders : List String) :
    (OrderManager.placeOrder orders order id).1 = orders ++ [id]
    ∧ strContains (OrderManager.placeOrder orders order id).2 order
    ∧ strContains (OrderManager.placeOrder orders order id).2 id := by
  refine ⟨rfl,
    ⟨"You have successfully ordered ".data, (" (" ++ id ++ ")").data, ?_⟩,
    ⟨("You have successfully ordered " ++ order ++ " (").data, ")".data, ?_⟩⟩
  · simp [OrderManager.placeOrder, str_data_append, List.append_assoc]
  · simp [OrderManager.placeOrder, str_data_append, List.append_assoc]

/-- C5: `trackOrder(id)` returns the same string on any two collection states,
that string contains `id` and the literal substring "20 minutes", and the call
leaves the collection unchanged. -/
theorem trackOrder_spec (id : String) (orders1 orders2 : List String) :
    (OrderManager.trackOrder orders1 id).2 = (OrderManager.trackOrder orders2 id).2
    ∧ (OrderManager.trackOrder orders1 id).1 = orders1
    ∧ strContains (OrderManager.trackOrder orders1 id).2 id
    ∧ strContains (OrderManager.trackOrder orders1 id).2 "20 minutes" := by
  refine ⟨rfl, rfl,
    ⟨"Your order ".data, " will arrive in 20 minutes.".data, ?_⟩, ?_⟩
  · simp [OrderManager.trackOrder, str_data_append, List.append_assoc]
  · refine ⟨("Your order " ++ id ++ " will arrive in ").data, ".".data, ?_⟩
    show (("Your order " ++ id) ++ " will arrive in 20 minutes.").data
        = (("Your order " ++ id) ++ " will arrive in ").data ++ "20 minutes".data ++ ".".data
    have h : (" will arrive in 20 minutes." : String).data
        = " will arrive in ".data ++ "20 minutes".data ++ ".".data := rfl
    simp only [str_data_append, h, List.append_assoc]
    simp

/-- C6: every operation of both managers is total: on every input it yields a
definite result (exhibited by the equations below), and an unknown identifier
produces no failure, only a no-op or a fixed message. -/
theorem operations_total (order id : String) (orders args : List String) :
    (OrderManager.placeOrder orders order id).1 = orders ++ [id]
    ∧ (OrderManager.trackOrder orders id).1 = orders
    ∧ (OrderManager.cancelOrder orders id).1 = orders.filter (fun x => x != id)
    ∧ (OrderManager1.execute orders (PlaceOrderCommand order id) args).orders
        = orders ++ [id]
    ∧ (OrderManager1.execute orders (TrackOrderCommand id) args).orders = orders
    ∧ (OrderManager1.execute orders (CancelOrderCommand id) args).orders = orders
    ∧ (id ∉ orders → (OrderManager.cancelOrder orders id).1 = orders) := by
  refine ⟨rfl, rfl, rfl, rfl, rfl, rfl, fun h => ?_⟩
  simp only [OrderManager.cancelOrder]
  rw [List.filter_eq_self]
  intro a ha
  simp only [bne_iff_ne, ne_eq]
  exact fun e => h (e ▸ ha)

/-- Witness for C6 at a concrete unknown identifier. -/
theorem operations_total_witness :
    (OrderManager.cancelOrder ["311"] "7").1 = ["311"] :=
  (operations_total "yuca" "7" ["311"] []).2.2.2.2.2.2 (by decide)

/-- C7: on a fresh Direct Manager, placing ("yuca", "311") and then cancelling
"311" yields a final collection that does not contain "311". -/
theorem scenario_direct_place_cancel :
    "311" ∉ (OrderManager.cancelOrder
      (OrderManager.placeOrder [] "yuca" "311").1 "311").1 := by decide

/-- C8: on a fresh dispatching manager, executing PlaceOrderCommand("Pad Thai",
"1234") makes the internal collection contain "1234"; a subsequent execution of
TrackOrderCommand("1234") logs the ETA message and leaves the collection
unchanged. -/
theorem scenario_dispatch_place_track :
    "1234" ∈ (OrderManager1.execute [] (PlaceOrderCommand "Pad Thai" "1234") []).orders
    ∧ (OrderManager1.execute
        (OrderManager1.execute [] (PlaceOrderCommand "Pad Thai" "1234") []).orders
        (TrackOrderCommand "1234") []).logs
      = ["Your order 1234 will arrive in 20 minutes."]
    ∧ (OrderManager1.execute
        (OrderManager1.execute [] (PlaceOrderCommand "Pad Thai" "1234") []).orders
        (TrackOrderCommand "1234") []).orders
      = (OrderManager1.execute [] (PlaceOrderCommand "Pad Thai" "1234") []).orders :=
  ⟨by decide, rfl, rfl⟩

/-- C9: no uniqueness is enforced: if the collection already contains `id`,
`placeOrder(order, id)` still succeeds and the number of occurrences of `id`
grows by exactly one. -/
theorem placeOrder_count (order id : String) (orders : List String)
    (_h : id ∈ orders) :
    List.count id (OrderManager.placeOrder orders order id).1
      = List.count id orders + 1 := by
  simp [OrderManager.placeOrder, List.count_append]

/-- Witness for C9 on a collection already holding the identifier. -/
theorem placeOrder_count_witness :
    List.count "311" (OrderManager.placeOrder ["311"] "yuca" "311").1
      = List.count "311" ["311"] + 1 :=
  placeOrder_count "yuca" "311" ["311"] (by decide)

/-- C10: `cancelOrder(id)` keeps the retained identifiers in their original
relative order: the result is exactly the original sequence with the
occurrences of `id` deleted, and it is a sublist of the original. -/
theorem cancelOrder_preserves_order (id : String) (orders : List String) :
    (OrderManager.cancelOrder orders id).1 = removeAllSpec id orders
    ∧ List.Sublist (OrderManager.cancelOrder orders id).1 orders := by
  constructor
  · simp only [OrderManager.cancelOrder]
    induction orders with
    | nil => rfl
    | cons x xs ih =>
      simp only [List.filter_cons, removeAllSpec]
      by_cases hx : x = id
      · simp [hx, ih]
      · simp [hx, bne_iff_ne, ih]
  · exact List.filter_sublist _
